import Mathlib

/-!
Shallow embedding of `src/main.rs` (bevy-demo-ruins): the deferred scene
patcher (`patch_loaded_scene`) and the orbit camera updater (`update_camera`),
together with proofs of the spec's testable properties.

Conventions of the embedding:
* `f32` scalars that only ever hold exact decimal constants are modelled as
  `ℚ` in the (executable) patcher, and as `ℝ` in the camera updater where
  trigonometry is involved.
* Bevy's `Assets<StandardMaterial>` keyed by `Handle` is modelled as an
  association list `List (MatId × Material)`; `Gltf.named_materials`
  (name → handle) as `List (String × MatId)`.
* A Rust panic (here: indexing `gltf.scenes[0]` on an empty vector) is
  modelled by the tick returning `none`.
-/

namespace Ruins

/-- Material identifier: stands for `Handle<StandardMaterial>`. -/
abbrev MatId := Nat

/-- Bevy `AlphaMode` (the variants used or reachable in this program). -/
inductive AlphaMode where
  | opaqueMode
  | mask (cutoff : ℚ)
  | blend
  | premultiplied
  | add
  | multiply
deriving DecidableEq, Repr

/-- Bevy `Color`: the two constructor families this program uses
(`Color::rgb`/`Color::BLACK` build sRGB `Rgba`, `Color::rgb_linear` builds
`RgbaLinear`). -/
inductive Color where
  | rgba (red green blue alpha : ℚ)
  | rgbaLinear (red green blue alpha : ℚ)
deriving DecidableEq, Repr

/-- `Color::BLACK`. -/
def Color.BLACK : Color := Color.rgba 0 0 0 1

/-- `Color::rgb(r, g, b)`. -/
def Color.rgb (r g b : ℚ) : Color := Color.rgba r g b 1

/-- `Color::rgb_linear(r, g, b)`. -/
def Color.rgb_linear (r g b : ℚ) : Color := Color.rgbaLinear r g b 1

/-- The fields of `StandardMaterial` that `patch_loaded_scene` reads or
writes. Texture handles are modelled as `Option Nat`. -/
structure Material where
  alpha_mode : AlphaMode
  base_color : Color
  base_color_texture : Option Nat
  emissive : Color
  emissive_texture : Option Nat
  reflectance : ℚ
  perceptual_roughness : ℚ
  depth_bias : ℚ
  fog_enabled : Bool
  unlit : Bool
deriving DecidableEq, Repr

/-- The parts of the loaded `Gltf` asset this program touches: the
name → handle material table and the list of root scenes. -/
structure Gltf where
  named_materials : List (String × MatId)
  scenes : List Nat
deriving DecidableEq, Repr

/-- First-match association-list lookup (models `HashMap::get` /
`Assets::get`). -/
def assoc {α β : Type} [DecidableEq α] (l : List (α × β)) (k : α) : Option β :=
  match l with
  | [] => none
  | p :: t => if p.1 = k then some p.2 else assoc t k

/-- Apply `f` to the material stored under key `i` (models the in-place
mutation through `Assets::get_mut`). -/
def update_mat (ms : List (MatId × Material)) (i : MatId) (f : Material → Material) :
    List (MatId × Material) :=
  ms.map fun p => if p.1 = i then (p.1, f p.2) else p

/-- The shared shape of every material edit in the Pending branch:
`if let Some(handle) = gltf.named_materials.get(name) \x7b if let Some(mut m) =
materials.get_mut(handle) \x7b *m = f(m) \x7d \x7d` — both lookups failing is a
silent skip. -/
def apply_named (g : Gltf) (ms : List (MatId × Material)) (name : String)
    (f : Material → Material) : List (MatId × Material) :=
  match assoc g.named_materials name with
  | some h =>
    match assoc ms h with
    | some _ => update_mat ms h f
    | none => ms
  | none => ms

/-- Edit applied to the material named "stained" (main.rs lines 177–183). -/
def stained_edit (m : Material) : Material :=
  { m with alpha_mode := AlphaMode.multiply, fog_enabled := false, unlit := true }

/-- Edit applied to the material named "stained-clearcoat" (lines 185–193). -/
def clearcoat_edit (m : Material) : Material :=
  { m with alpha_mode := AlphaMode.add, depth_bias := 0.3,
           perceptual_roughness := 0.1 }

/-- Edit applied to the material named "fire" (lines 195–203). -/
def fire_edit (m : Material) : Material :=
  { m with alpha_mode := AlphaMode.add, base_color := Color.BLACK,
           reflectance := 0, emissive := Color.rgb_linear 10 10 10,
           emissive_texture := m.base_color_texture }

/-- Edit applied to the material named "smoke" (lines 205–213). -/
def smoke_edit (m : Material) : Material :=
  { m with alpha_mode := AlphaMode.add, base_color := Color.BLACK,
           reflectance := 0, emissive := Color.rgb 0.5 0.3 0.2,
           emissive_texture := m.base_color_texture }

/-- Edit applied to each foliage/vegetation material (line 233). -/
def foliage_edit (m : Material) : Material :=
  { m with alpha_mode := AlphaMode.mask 0.5 }

/-- The fixed foliage/vegetation name list (lines 215–230). -/
def foliage_names : List String :=
  ["Blue_flower", "Fern", "Fern1", "lambert10", "orange_leaf", "lambert5",
   "grass", "tree_leafs", "palm", "palm_and_red", "Leaf_Floor", "lambert8",
   "Pink_flower", "lambert11"]

/-- All material edits of the Pending branch, in source order
(lines 177–236). -/
def patch_materials (g : Gltf) (ms : List (MatId × Material)) :
    List (MatId × Material) :=
  List.foldl (fun acc n => apply_named g acc n foliage_edit)
    (apply_named g
      (apply_named g
        (apply_named g
          (apply_named g ms "stained" stained_edit)
          "stained-clearcoat" clearcoat_edit)
        "fire" fire_edit)
      "smoke" smoke_edit)
    foliage_names

/-- Substring test on character lists: `needle` occurs contiguously in
`hay`. -/
def listInfix (needle hay : List Char) : Bool :=
  match hay with
  | [] => needle.isEmpty
  | _ :: t => List.isPrefixOf needle hay || listInfix needle t

/-- Rust `str::contains` on the needles used here ("fire"/"smoke" are ASCII,
so byte-level substring search coincides with character-level infix). -/
def containsStr (hay : String) (needle : String) : Bool :=
  listInfix needle.toList hay.toList

/-- A named scene-graph node with the three components the sweep can insert:
`Patched`, `NotShadowCaster`, `NotShadowReceiver`. -/
structure Node where
  name : String
  patched : Bool
  not_shadow_caster : Bool
  not_shadow_receiver : Bool
deriving DecidableEq, Repr

/-- One node's treatment in the Patched-Pending sweep (lines 248–256): nodes
already carrying `Patched` are excluded by the `Without<Patched>` query
filter; the rest branch on the name containing "fire" or "smoke". -/
def patchNode (n : Node) : Node :=
  if n.patched then n
  else if containsStr n.name "fire" || containsStr n.name "smoke" then
    { n with not_shadow_caster := true, not_shadow_receiver := true,
             patched := true }
  else { n with patched := true }

/-- One tick of the Patched-Pending sweep over all named nodes. -/
def sweep (ns : List Node) : List Node :=
  ns.map patchNode

/-- `GltfState` resource (lines 14–18). -/
structure GltfState where
  is_loaded : Bool
  handle : Nat
deriving DecidableEq, Repr

/-- The mutable world state `patch_loaded_scene` touches: the material
store, the named scene-graph nodes, and the scenes spawned so far. -/
structure World where
  materials : List (MatId × Material)
  nodes : List Node
  spawned : List Nat
deriving DecidableEq, Repr

/-- One tick of the `patch_loaded_scene` system (lines 168–258).
`gltf_assets` is the asset store queried at `gltf_state.handle`; a missing
asset is a no-op tick. `gltf.scenes[0]` on an empty scene list is a Rust
panic, modelled as `none`. -/
def patch_loaded_scene (gltf_assets : Nat → Option Gltf) (st : GltfState)
    (w : World) : Option (GltfState × World) :=
  if st.is_loaded = false then
    match gltf_assets st.handle with
    | some g =>
      match g.scenes[0]? with
      | some sc =>
        some ({ st with is_loaded := true },
              { w with materials := patch_materials g w.materials,
                       spawned := w.spawned ++ [sc] })
      | none => none
    | none => some (st, w)
  else
    some (st, { w with nodes := sweep w.nodes })

/-- Run `patch_loaded_scene` over a sequence of ticks; `inputs` gives the
asset store observed at each tick. -/
def run (inputs : List (Nat → Option Gltf)) (s : GltfState × World) :
    Option (GltfState × World) :=
  match inputs with
  | [] => some s
  | a :: rest =>
    match patch_loaded_scene a s.1 s.2 with
    | none => none
    | some s1 => run rest s1

/-!
Orbit camera updater (`update_camera`, main.rs lines 260–279), over `ℝ`.
`now` is the scaled elapsed time (`time.elapsed_seconds() * 1.5`).
-/

section Camera

open scoped Classical

/-- `orbit_scale` (line 263): `5.1 - (now / 10.0).cos() * 4.0`. -/
noncomputable def orbit_scale (now : ℝ) : ℝ :=
  5.1 - Real.cos (now / 10) * 4

/-- Camera position X (line 265): `(now / 5.0).cos() * orbit_scale`. -/
noncomputable def camera_x (now : ℝ) : ℝ :=
  Real.cos (now / 5) * orbit_scale now

/-- Camera position Z (line 267): `(now / 5.0).sin() * orbit_scale`. -/
noncomputable def camera_z (now : ℝ) : ℝ :=
  Real.sin (now / 5) * orbit_scale now

/-- Look-at target X (line 271): `((now + 2.3) / 5.0).sin() * orbit_scale * 0.1`. -/
noncomputable def look_target_x (now : ℝ) : ℝ :=
  Real.sin ((now + 2.3) / 5) * orbit_scale now * 0.1

/-- Look-at target Y (line 272): `orbit_scale * 0.1`. -/
noncomputable def look_target_y (now : ℝ) : ℝ :=
  orbit_scale now * 0.1

/-- Look-at target Z (line 273): `((now + 2.3) / 5.0).cos() * orbit_scale * 0.1`. -/
noncomputable def look_target_z (now : ℝ) : ℝ :=
  Real.cos ((now + 2.3) / 5) * orbit_scale now * 0.1

/-- Roll angle passed to `Quat::from_rotation_z` (line 278):
`orbit_scale * 0.01`. -/
noncomputable def roll_angle (now : ℝ) : ℝ :=
  orbit_scale now * 0.01

/-- The spec's reading of the look-at target X: the camera-position orbit
parameterization (X uses cosine) evaluated at phase `t + 2.3`, scaled by
`0.1 * orbitRadius`. Used only to compare the spec's words against the
code. -/
noncomputable def spec_look_target_x (now : ℝ) : ℝ :=
  Real.cos ((now + 2.3) / 5) * (orbit_scale now * 0.1)

/-- The spec's reading of the look-at target Z (Z uses sine in the camera
position formula), phase `t + 2.3`, scale `0.1 * orbitRadius`. -/
noncomputable def spec_look_target_z (now : ℝ) : ℝ :=
  Real.sin ((now + 2.3) / 5) * (orbit_scale now * 0.1)

/-- glam `Vec3`. -/
structure Vec3 where
  x : ℝ
  y : ℝ
  z : ℝ

/-- `Vec3::NEG_Z`. -/
noncomputable def Vec3.NEG_Z : Vec3 := ⟨0, 0, -1⟩

/-- `Vec3::Y`. -/
noncomputable def Vec3.Y : Vec3 := ⟨0, 1, 0⟩

/-- Vector negation. -/
noncomputable def Vec3.neg (v : Vec3) : Vec3 := ⟨-v.x, -v.y, -v.z⟩

/-- Componentwise subtraction. -/
noncomputable def Vec3.sub (a b : Vec3) : Vec3 := ⟨a.x - b.x, a.y - b.y, a.z - b.z⟩

/-- Scalar multiple. -/
noncomputable def Vec3.scale (v : Vec3) (s : ℝ) : Vec3 := ⟨v.x * s, v.y * s, v.z * s⟩

/-- Dot product. -/
noncomputable def Vec3.dot (a b : Vec3) : ℝ := a.x * b.x + a.y * b.y + a.z * b.z

/-- Cross product (glam `Vec3::cross`). -/
noncomputable def Vec3.cross (a b : Vec3) : Vec3 :=
  ⟨a.y * b.z - a.z * b.y, a.z * b.x - a.x * b.z, a.x * b.y - a.y * b.x⟩

/-- `f32::signum` on the values reachable here (`+0.0` counts as positive). -/
noncomputable def realSignum (v : ℝ) : ℝ := if v < 0 then -1 else 1

/-- glam `Vec3::try_normalize`: `none` when the length reciprocal is not
finite and positive, i.e. (over ℝ) when the vector is zero. -/
noncomputable def Vec3.try_normalize (v : Vec3) : Option Vec3 :=
  if Vec3.dot v v = 0 then none
  else some (v.scale (1 / Real.sqrt (Vec3.dot v v)))

/-- glam `Vec3::any_orthonormal_vector` (Pixar orthonormal-basis trick);
fallback used by `look_to` when `up × forward` degenerates. -/
noncomputable def Vec3.any_orthonormal_vector (v : Vec3) : Vec3 :=
  let sign := realSignum v.z
  let a := -1 / (sign + v.z)
  let b := v.x * v.y * a
  ⟨b, sign + v.y * v.y * a, -v.y⟩

/-- glam `Quat`, components `(x, y, z, w)` with `w` the scalar part. -/
structure Quat where
  x : ℝ
  y : ℝ
  z : ℝ
  w : ℝ

/-- `Quat::IDENTITY`. -/
noncomputable def Quat.IDENTITY : Quat := ⟨0, 0, 0, 1⟩

/-- glam quaternion (Hamilton) product. -/
noncomputable def Quat.mul (a b : Quat) : Quat :=
  ⟨a.w * b.x + a.x * b.w + a.y * b.z - a.z * b.y,
   a.w * b.y - a.x * b.z + a.y * b.w + a.z * b.x,
   a.w * b.z + a.x * b.y - a.y * b.x + a.z * b.w,
   a.w * b.w - a.x * b.x - a.y * b.y - a.z * b.z⟩

/-- `Quat::from_rotation_z(angle)` = `(0, 0, sin(angle/2), cos(angle/2))`. -/
noncomputable def Quat.from_rotation_z (angle : ℝ) : Quat :=
  ⟨0, 0, Real.sin (angle / 2), Real.cos (angle / 2)⟩

/-- glam `Quat::from_mat3` on the matrix with columns
`(x_axis, y_axis, z_axis)` (the branchy trace-based conversion). -/
noncomputable def Quat.from_rotation_axes (xa ya za : Vec3) : Quat :=
  let m00 := xa.x; let m01 := xa.y; let m02 := xa.z
  let m10 := ya.x; let m11 := ya.y; let m12 := ya.z
  let m20 := za.x; let m21 := za.y; let m22 := za.z
  if m22 ≤ 0 then
    let dif10 := m11 - m00
    let omm22 := 1 - m22
    if dif10 ≤ 0 then
      let four_xsq := omm22 - dif10
      let inv4x := 0.5 / Real.sqrt four_xsq
      ⟨four_xsq * inv4x, (m01 + m10) * inv4x, (m02 + m20) * inv4x,
       (m12 - m21) * inv4x⟩
    else
      let four_ysq := omm22 + dif10
      let inv4y := 0.5 / Real.sqrt four_ysq
      ⟨(m01 + m10) * inv4y, four_ysq * inv4y, (m12 + m21) * inv4y,
       (m20 - m02) * inv4y⟩
  else
    let sum10 := m11 + m00
    let opm22 := 1 + m22
    if sum10 ≤ 0 then
      let four_zsq := opm22 - sum10
      let inv4z := 0.5 / Real.sqrt four_zsq
      ⟨(m02 + m20) * inv4z, (m12 + m21) * inv4z, four_zsq * inv4z,
       (m01 - m10) * inv4z⟩
    else
      let four_wsq := opm22 + sum10
      let inv4w := 0.5 / Real.sqrt four_wsq
      ⟨(m12 - m21) * inv4w, (m20 - m02) * inv4w, (m01 - m10) * inv4w,
       four_wsq * inv4w⟩

/-- Bevy `Transform` (scale carried for faithfulness; untouched here). -/
structure Transform where
  translation : Vec3
  rotation : Quat
  scale : Vec3

/-- `Transform::from_xyz`. -/
noncomputable def Transform.from_xyz (x y z : ℝ) : Transform :=
  ⟨⟨x, y, z⟩, Quat.IDENTITY, ⟨1, 1, 1⟩⟩

/-- Bevy `Transform::look_to` (0.10): build an orthonormal basis from the
view direction and up vector and convert it to a quaternion. -/
noncomputable def Transform.look_to (tr : Transform) (direction up : Vec3) :
    Transform :=
  let forward := Vec3.neg ((Vec3.try_normalize direction).getD Vec3.NEG_Z)
  let right :=
    (Vec3.try_normalize (Vec3.cross up forward)).getD
      (Vec3.any_orthonormal_vector up)
  let up2 := Vec3.cross forward right
  { tr with rotation := Quat.from_rotation_axes right up2 forward }

/-- Bevy `Transform::looking_at(target, up)`:
`look_to(target - translation, up)`. -/
noncomputable def Transform.looking_at (tr : Transform) (target up : Vec3) :
    Transform :=
  Transform.look_to tr (Vec3.sub target tr.translation) up

/-- Bevy `Transform::rotate(q)`: `rotation = q * rotation` (premultiplied,
i.e. a rotation in the parent/world frame, not about a local axis). -/
noncomputable def Transform.rotate (tr : Transform) (q : Quat) : Transform :=
  { tr with rotation := Quat.mul q tr.rotation }

/-- Camera transform after position + `looking_at` (lines 264–276), before
the extra rotation. -/
noncomputable def camera_look_transform (now : ℝ) : Transform :=
  Transform.looking_at
    (Transform.from_xyz (camera_x now) 1.8 (camera_z now))
    ⟨look_target_x now, look_target_y now, look_target_z now⟩
    Vec3.Y

/-- Full `update_camera` result for scaled time `now` (lines 263–278). -/
noncomputable def update_camera (now : ℝ) : Transform :=
  Transform.rotate (camera_look_transform now)
    (Quat.from_rotation_z (roll_angle now))

end Camera

/-! ### Lemmas about the Patched-Pending sweep -/

lemma patchNode_of_patched (n : Node) (h : n.patched = true) : patchNode n = n := by
  unfold patchNode
  rw [h]
  simp

lemma sweep_of_all_patched (ns : List Node) (h : ∀ n ∈ ns, n.patched = true) :
    sweep ns = ns := by
  unfold sweep
  induction ns with
  | nil => rfl
  | cons m t ih =>
    rw [List.map_cons, patchNode_of_patched m (h m (List.mem_cons_self m t)),
        ih fun n hn => h n (List.mem_cons_of_mem m hn)]

/-- C1: after one full pass of the Patched-Pending sweep over named nodes
that carry none of the three components yet, every node whose name contains
"fire" or "smoke" (case-sensitive substring) carries both shadow-exclusion
components and the Patched marker, and every other node carries only the
Patched marker. -/
theorem sweep_coverage (ns : List Node)
    (h : ∀ n ∈ ns, n.patched = false ∧ n.not_shadow_caster = false ∧
      n.not_shadow_receiver = false) :
    ∀ n ∈ sweep ns,
      ((containsStr n.name "fire" || containsStr n.name "smoke") = true →
        n.not_shadow_caster = true ∧ n.not_shadow_receiver = true ∧
        n.patched = true) ∧
      ((containsStr n.name "fire" || containsStr n.name "smoke") = false →
        n.patched = true ∧ n.not_shadow_caster = false ∧
        n.not_shadow_receiver = false) := by
  intro n hn
  rw [sweep, List.mem_map] at hn
  obtain ⟨m, hm, rfl⟩ := hn
  obtain ⟨h1, h2, h3⟩ := h m hm
  unfold patchNode
  rw [h1]
  by_cases hc : (containsStr m.name "fire" || containsStr m.name "smoke") = true
  · simp [hc]
  · simp only [Bool.not_eq_true] at hc
    simp [hc, h2, h3]

/-- Witness for C1 at a concrete node list. -/
theorem sweep_coverage_witness :
    (∀ n ∈ [Node.mk "campfire" false false false, Node.mk "pillar" false false false],
      n.patched = false ∧ n.not_shadow_caster = false ∧ n.not_shadow_receiver = false) ∧
    (∀ n ∈ sweep [Node.mk "campfire" false false false, Node.mk "pillar" false false false],
      ((containsStr n.name "fire" || containsStr n.name "smoke") = true →
        n.not_shadow_caster = true ∧ n.not_shadow_receiver = true ∧
        n.patched = true) ∧
      ((containsStr n.name "fire" || containsStr n.name "smoke") = false →
        n.patched = true ∧ n.not_shadow_caster = false ∧
        n.not_shadow_receiver = false)) :=
  ⟨by decide, sweep_coverage _ (by decide)⟩

/-- C3: the Patched-Pending sweep is a no-op at steady state: once the scene
is loaded and every named node carries the Patched marker, a tick of
`patch_loaded_scene` changes no state at all. -/
theorem sweep_idempotent_steady (gltf_assets : Nat → Option Gltf)
    (st : GltfState) (w : World) (hl : st.is_loaded = true)
    (hp : ∀ n ∈ w.nodes, n.patched = true) :
    patch_loaded_scene gltf_assets st w = some (st, w) := by
  unfold patch_loaded_scene
  rw [hl]
  simp only [Bool.true_eq_false, if_false]
  rw [sweep_of_all_patched w.nodes hp]

/-- Witness for C3 at a concrete fully-marked world. -/
theorem sweep_idempotent_steady_witness :
    (GltfState.mk true 0).is_loaded = true ∧
    (∀ n ∈ (World.mk [] [Node.mk "fire_anim" true true true] []).nodes,
      n.patched = true) ∧
    patch_loaded_scene (fun _ => none) (GltfState.mk true 0)
      (World.mk [] [Node.mk "fire_anim" true true true] []) =
      some (GltfState.mk true 0, World.mk [] [Node.mk "fire_anim" true true true] []) :=
  ⟨rfl, by decide, sweep_idempotent_steady _ _ _ rfl (by decide)⟩

/-! ### Lemmas about single ticks of `patch_loaded_scene` -/

lemma step_when_loaded (a : Nat → Option Gltf) (st : GltfState) (w : World)
    (h : st.is_loaded = true) :
    patch_loaded_scene a st w = some (st, { w with nodes := sweep w.nodes }) := by
  unfold patch_loaded_scene
  rw [h]
  simp

lemma step_asset_missing (a : Nat → Option Gltf) (st : GltfState) (w : World)
    (h : st.is_loaded = false) (ha : a st.handle = none) :
    patch_loaded_scene a st w = some (st, w) := by
  unfold patch_loaded_scene
  rw [h]
  simp [ha]

lemma step_asset_ready (a : Nat → Option Gltf) (st : GltfState) (w : World)
    (g : Gltf) (sc : Nat) (t : List Nat) (h : st.is_loaded = false)
    (ha : a st.handle = some g) (hs : g.scenes = sc :: t) :
    patch_loaded_scene a st w =
      some ({ st with is_loaded := true },
            { w with materials := patch_materials g w.materials,
                     spawned := w.spawned ++ [sc] }) := by
  unfold patch_loaded_scene
  rw [h]
  simp [ha, hs]

lemma step_panic (a : Nat → Option Gltf) (st : GltfState) (w : World)
    (g : Gltf) (h : st.is_loaded = false) (ha : a st.handle = some g)
    (hs : g.scenes = []) :
    patch_loaded_scene a st w = none := by
  unfold patch_loaded_scene
  rw [h]
  simp [ha, hs]

/-- C2: over any completed tick sequence, the Scene Load State never reverts
from loaded to not-loaded (and a loaded start spawns nothing further); the
handle never changes; and starting not-loaded, the flag ends true exactly
when some tick observed the asset loaded, with exactly one scene spawn
accompanying that single transition. -/
theorem scene_load_state_monotonic (inputs : List (Nat → Option Gltf))
    (s s' : GltfState × World) (h : run inputs s = some s') :
    (s.1.is_loaded = true → s'.1.is_loaded = true ∧ s'.2.spawned = s.2.spawned) ∧
    s'.1.handle = s.1.handle ∧
    (s.1.is_loaded = false →
      ((s'.1.is_loaded = true) ↔ ∃ a ∈ inputs, (a s.1.handle).isSome = true) ∧
      s'.2.spawned.length =
        s.2.spawned.length + (if s'.1.is_loaded = true then 1 else 0)) := by
  induction inputs generalizing s with
  | nil =>
    have hs : s = s' := by simpa [run] using h
    subst hs
    refine ⟨fun hT => ⟨hT, rfl⟩, rfl, fun hF => ⟨?_, ?_⟩⟩
    · simp [hF]
    · simp [hF]
  | cons a rest ih =>
    cases hl : s.1.is_loaded with
    | true =>
      rw [run, step_when_loaded a s.1 s.2 hl] at h
      obtain ⟨m1, m2, m3⟩ := ih _ h
      exact ⟨fun _ => m1 hl, m2, fun hF => absurd hF (by decide)⟩
    | false =>
      cases ha : a s.1.handle with
      | none =>
        rw [run, step_asset_missing a s.1 s.2 hl ha] at h
        obtain ⟨m1, m2, m3⟩ := ih _ h
        refine ⟨fun hT => absurd hT (by decide), m2, fun _ => ?_⟩
        refine ⟨?_, (m3 hl).2⟩
        rw [(m3 hl).1]
        constructor
        · rintro ⟨a1, ha1, hsome⟩
          exact ⟨a1, List.mem_cons_of_mem a ha1, hsome⟩
        · rintro ⟨a1, ha1, hsome⟩
          rcases List.mem_cons.mp ha1 with rfl | hmem
          · rw [ha] at hsome
            cases hsome
          · exact ⟨a1, hmem, hsome⟩
      | some g =>
        cases hsc : g.scenes with
        | nil =>
          rw [run, step_panic a s.1 s.2 g hl ha hsc] at h
          cases h
        | cons sc t =>
          rw [run, step_asset_ready a s.1 s.2 g sc t hl ha hsc] at h
          obtain ⟨m1, m2, m3⟩ := ih _ h
          have hm := m1 rfl
          have hex : ∃ a1 ∈ a :: rest, (a1 s.1.handle).isSome = true :=
            ⟨a, List.mem_cons_self a rest, by rw [ha]; rfl⟩
          refine ⟨fun hT => absurd hT (by decide), m2, fun _ => ?_⟩
          refine ⟨⟨fun _ => hex, fun _ => hm.1⟩, ?_⟩
          rw [hm.1, if_pos rfl, hm.2]
          simp

/-- Witness for C2 at a concrete two-tick input sequence (asset missing on
the first tick, ready on the second). -/
theorem scene_load_state_monotonic_witness :
    run [fun _ => none, fun _ => some (Gltf.mk [] [7])]
      (GltfState.mk false 0, World.mk [] [] []) =
      some (GltfState.mk true 0, World.mk [] [] [7]) ∧
    (((GltfState.mk false 0, World.mk [] [] []).1.is_loaded = true →
        (GltfState.mk true 0, World.mk [] [] [7]).1.is_loaded = true ∧
        (GltfState.mk true 0, World.mk [] [] [7]).2.spawned =
          (GltfState.mk false 0, World.mk [] [] []).2.spawned) ∧
      (GltfState.mk true 0, World.mk [] [] [7]).1.handle =
        (GltfState.mk false 0, World.mk [] [] []).1.handle ∧
      ((GltfState.mk false 0, World.mk [] [] []).1.is_loaded = false →
        (((GltfState.mk true 0, World.mk [] [] [7]).1.is_loaded = true) ↔
          ∃ a ∈ [fun _ => none, fun _ => some (Gltf.mk [] [7])],
            (a (GltfState.mk false 0, World.mk [] [] []).1.handle).isSome = true) ∧
        (GltfState.mk true 0, World.mk [] [] [7]).2.spawned.length =
          (GltfState.mk false 0, World.mk [] [] []).2.spawned.length +
            (if (GltfState.mk true 0, World.mk [] [] [7]).1.is_loaded = true
             then 1 else 0))) :=
  ⟨rfl, scene_load_state_monotonic _ _ _ rfl⟩

/-- C4 counterexample: a loaded asset whose list of root scenes is empty
makes the Pending-state tick panic (the code indexes `gltf.scenes[0]`),
modelled as the tick returning `none`. -/
theorem patch_panic_empty_scenes :
    patch_loaded_scene (fun _ => some (Gltf.mk [] [])) (GltfState.mk false 0)
      (World.mk [] [] []) = none := rfl

/-- C4 (amended): for every loaded asset whose list of root scenes is
non-empty, the tick completes without a panic. -/
theorem patch_no_panic_nonempty (gltf_assets : Nat → Option Gltf)
    (st : GltfState) (w : World) (g : Gltf)
    (hg : gltf_assets st.handle = some g) (hs : g.scenes ≠ []) :
    (patch_loaded_scene gltf_assets st w).isSome = true := by
  obtain ⟨s, t, hst⟩ : ∃ s t, g.scenes = s :: t := by
    cases hsc : g.scenes with
    | nil => exact absurd hsc hs
    | cons s t => exact ⟨s, t, rfl⟩
  unfold patch_loaded_scene
  cases hl : st.is_loaded with
  | true => simp
  | false => simp [hg, hst]

/-- Witness for C4 (amended) at a concrete asset with one root scene. -/
theorem patch_no_panic_nonempty_witness :
    (fun _ => some (Gltf.mk [] [5])) (GltfState.mk false 0).handle =
      some (Gltf.mk [] [5]) ∧
    (Gltf.mk [] [5]).scenes ≠ [] ∧
    (patch_loaded_scene (fun _ => some (Gltf.mk [] [5])) (GltfState.mk false 0)
      (World.mk [] [] [])).isSome = true :=
  ⟨rfl, by decide, patch_no_panic_nonempty _ _ _ _ rfl (by decide)⟩

/-! ### Lemmas about material lookups and edits -/

lemma assoc_update_self (ms : List (MatId × Material)) (i : MatId)
    (f : Material → Material) :
    assoc (update_mat ms i f) i = Option.map f (assoc ms i) := by
  induction ms with
  | nil => rfl
  | cons p t ih =>
    by_cases hp : p.1 = i
    · simp [update_mat, assoc, hp]
    · simp only [update_mat, List.map_cons, if_neg hp]
      rw [assoc, if_neg hp, assoc, if_neg hp]
      exact ih

lemma assoc_update_ne (ms : List (MatId × Material)) (i : MatId)
    (f : Material → Material) (j : MatId) (hj : j ≠ i) :
    assoc (update_mat ms i f) j = assoc ms j := by
  induction ms with
  | nil => rfl
  | cons p t ih =>
    by_cases hp : p.1 = i
    · have hpj : ¬p.1 = j := fun hc => hj (hc ▸ hp)
      simp only [update_mat, List.map_cons, if_pos hp]
      rw [assoc, if_neg hpj, assoc, if_neg hpj]
      exact ih
    · simp only [update_mat, List.map_cons, if_neg hp]
      by_cases hpj : p.1 = j
      · rw [assoc, if_pos hpj, assoc, if_pos hpj]
      · rw [assoc, if_neg hpj, assoc, if_neg hpj]
        exact ih

lemma apply_named_of_name_none (g : Gltf) (ms : List (MatId × Material))
    (name : String) (f : Material → Material)
    (hn : assoc g.named_materials name = none) :
    apply_named g ms name f = ms := by
  unfold apply_named
  rw [hn]

lemma apply_named_of_mat_none (g : Gltf) (ms : List (MatId × Material))
    (name : String) (f : Material → Material) (j : MatId)
    (hn : assoc g.named_materials name = some j) (hm : assoc ms j = none) :
    apply_named g ms name f = ms := by
  simp only [apply_named, hn, hm]

lemma apply_named_of_found (g : Gltf) (ms : List (MatId × Material))
    (name : String) (f : Material → Material) (j : MatId) (m : Material)
    (hn : assoc g.named_materials name = some j) (hm : assoc ms j = some m) :
    apply_named g ms name f = update_mat ms j f := by
  simp only [apply_named, hn, hm]

lemma apply_named_assoc_ne (g : Gltf) (ms : List (MatId × Material))
    (name : String) (f : Material → Material) (i : MatId)
    (h : assoc g.named_materials name ≠ some i) :
    assoc (apply_named g ms name f) i = assoc ms i := by
  cases hn : assoc g.named_materials name with
  | none => rw [apply_named_of_name_none g ms name f hn]
  | some j =>
    have hji : j ≠ i := fun hc => h (hc ▸ hn)
    cases hm : assoc ms j with
    | none => rw [apply_named_of_mat_none g ms name f j hn hm]
    | some m =>
      rw [apply_named_of_found g ms name f j m hn hm]
      exact assoc_update_ne ms j f i (fun hc => hji hc.symm)

lemma foliage_fold_preserve (g : Gltf) (names : List String)
    (ms : List (MatId × Material)) (i : MatId) (v : Material)
    (hv : assoc ms i = some v) (hfix : foliage_edit v = v) :
    assoc (List.foldl (fun acc n => apply_named g acc n foliage_edit) ms names)
      i = some v := by
  induction names generalizing ms with
  | nil => exact hv
  | cons n t ih =>
    rw [List.foldl_cons]
    apply ih
    by_cases hn : assoc g.named_materials n = some i
    · rw [apply_named_of_found g ms n foliage_edit i v hn hv,
          assoc_update_self, hv]
      exact congrArg some hfix
    · rw [apply_named_assoc_ne g ms n foliage_edit i hn]
      exact hv

lemma foliage_fold_untouched (g : Gltf) (names : List String)
    (ms : List (MatId × Material)) (i : MatId)
    (h : ∀ n ∈ names, assoc g.named_materials n ≠ some i) :
    assoc (List.foldl (fun acc n => apply_named g acc n foliage_edit) ms names)
      i = assoc ms i := by
  induction names generalizing ms with
  | nil => rfl
  | cons n t ih =>
    rw [List.foldl_cons,
        ih _ fun n1 hn1 => h n1 (List.mem_cons_of_mem n hn1),
        apply_named_assoc_ne g ms n foliage_edit i (h n (List.mem_cons_self n t))]

lemma foliage_fold_mask (g : Gltf) (names : List String)
    (ms : List (MatId × Material)) (i : MatId) (m : Material)
    (hm : assoc ms i = some m)
    (hex : ∃ n ∈ names, assoc g.named_materials n = some i) :
    assoc (List.foldl (fun acc n => apply_named g acc n foliage_edit) ms names)
      i = some (foliage_edit m) := by
  induction names generalizing ms with
  | nil =>
    obtain ⟨n, hn, _⟩ := hex
    cases hn
  | cons n t ih =>
    rw [List.foldl_cons]
    by_cases hn : assoc g.named_materials n = some i
    · have h1 : assoc (apply_named g ms n foliage_edit) i =
          some (foliage_edit m) := by
        rw [apply_named_of_found g ms n foliage_edit i m hn hm,
            assoc_update_self, hm]
        rfl
      exact foliage_fold_preserve g t _ i (foliage_edit m) h1 rfl
    · have h1 : assoc (apply_named g ms n foliage_edit) i = some m := by
        rw [apply_named_assoc_ne g ms n foliage_edit i hn]
        exact hm
      obtain ⟨n1, hn1, hi1⟩ := hex
      rcases List.mem_cons.mp hn1 with rfl | hmem
      · exact absurd hi1 hn
      · exact ih _ h1 ⟨n1, hmem, hi1⟩

/-- C9: when the asset's material table has no entry named "fire", the fire
rule edits nothing (the whole material pass equals the same pipeline with
the fire stage dropped, so every other applicable edit still occurs), and
the pass completes — it is a total function with no error path. -/
theorem fire_absent_no_fire_edit (g : Gltf) (ms : List (MatId × Material))
    (h : assoc g.named_materials "fire" = none) :
    apply_named g ms "fire" fire_edit = ms ∧
    patch_materials g ms =
      List.foldl (fun acc n => apply_named g acc n foliage_edit)
        (apply_named g
          (apply_named g
            (apply_named g ms "stained" stained_edit)
            "stained-clearcoat" clearcoat_edit)
          "smoke" smoke_edit)
        foliage_names := by
  have h1 : ∀ ms1 : List (MatId × Material),
      apply_named g ms1 "fire" fire_edit = ms1 := by
    intro ms1
    unfold apply_named
    rw [h]
  exact ⟨h1 ms, by rw [patch_materials, h1]⟩

/-- Witness for C9 at a concrete asset without a "fire" material. -/
theorem fire_absent_no_fire_edit_witness :
    assoc (Gltf.mk [("grass", 3)] [0]).named_materials "fire" = none ∧
    (apply_named (Gltf.mk [("grass", 3)] [0]) [] "fire" fire_edit = [] ∧
     patch_materials (Gltf.mk [("grass", 3)] [0]) [] =
       List.foldl (fun acc n => apply_named (Gltf.mk [("grass", 3)] [0]) acc n
           foliage_edit)
         (apply_named (Gltf.mk [("grass", 3)] [0])
           (apply_named (Gltf.mk [("grass", 3)] [0])
             (apply_named (Gltf.mk [("grass", 3)] [0]) [] "stained" stained_edit)
             "stained-clearcoat" clearcoat_edit)
           "smoke" smoke_edit)
         foliage_names) :=
  ⟨rfl, fire_absent_no_fire_edit _ _ rfl⟩

/-- C10: each foliage-listed material present in the asset ends the material
pass with exactly its alpha mode switched to `Mask(0.5)` and every other
field unchanged (assuming its handle is not also bound to one of the four
specially-named entries, as handles of distinct gltf materials are
distinct). -/
theorem foliage_masked_only (g : Gltf) (ms : List (MatId × Material))
    (n : String) (i : MatId) (m : Material)
    (hn : n ∈ foliage_names)
    (hni : assoc g.named_materials n = some i)
    (hmi : assoc ms i = some m)
    (hsp : ∀ s ∈ (["stained", "stained-clearcoat", "fire", "smoke"] : List String),
      assoc g.named_materials s ≠ some i) :
    assoc (patch_materials g ms) i =
      some { m with alpha_mode := AlphaMode.mask 0.5 } := by
  have h1 : assoc (apply_named g ms "stained" stained_edit) i = some m := by
    rw [apply_named_assoc_ne g ms _ _ i (hsp "stained" (by simp))]
    exact hmi
  have h2 : assoc (apply_named g (apply_named g ms "stained" stained_edit)
      "stained-clearcoat" clearcoat_edit) i = some m := by
    rw [apply_named_assoc_ne g _ _ _ i (hsp "stained-clearcoat" (by simp))]
    exact h1
  have h3 : assoc (apply_named g (apply_named g (apply_named g ms "stained"
      stained_edit) "stained-clearcoat" clearcoat_edit) "fire" fire_edit) i =
      some m := by
    rw [apply_named_assoc_ne g _ _ _ i (hsp "fire" (by simp))]
    exact h2
  have h4 : assoc (apply_named g (apply_named g (apply_named g (apply_named g
      ms "stained" stained_edit) "stained-clearcoat" clearcoat_edit) "fire"
      fire_edit) "smoke" smoke_edit) i = some m := by
    rw [apply_named_assoc_ne g _ _ _ i (hsp "smoke" (by simp))]
    exact h3
  rw [patch_materials]
  exact foliage_fold_mask g foliage_names _ i m h4 ⟨n, hn, hni⟩

/-- Witness for C10 at a concrete asset holding one foliage material. -/
theorem foliage_masked_only_witness :
    "grass" ∈ foliage_names ∧
    assoc (Gltf.mk [("grass", 5)] [0]).named_materials "grass" = some 5 ∧
    assoc [(5, Material.mk AlphaMode.blend (Color.rgba 1 1 1 1) (some 4)
      (Color.rgba 0 0 0 1) none 0.5 0.5 0 true false)] 5 =
      some (Material.mk AlphaMode.blend (Color.rgba 1 1 1 1) (some 4)
        (Color.rgba 0 0 0 1) none 0.5 0.5 0 true false) ∧
    (∀ s ∈ (["stained", "stained-clearcoat", "fire", "smoke"] : List String),
      assoc (Gltf.mk [("grass", 5)] [0]).named_materials s ≠ some 5) ∧
    assoc (patch_materials (Gltf.mk [("grass", 5)] [0])
        [(5, Material.mk AlphaMode.blend (Color.rgba 1 1 1 1) (some 4)
          (Color.rgba 0 0 0 1) none 0.5 0.5 0 true false)]) 5 =
      some { Material.mk AlphaMode.blend (Color.rgba 1 1 1 1) (some 4)
        (Color.rgba 0 0 0 1) none 0.5 0.5 0 true false with
          alpha_mode := AlphaMode.mask 0.5 } :=
  ⟨by decide, rfl, rfl, by decide,
   foliage_masked_only _ _ "grass" 5 _ (by decide) rfl rfl (by decide)⟩

/-! ### Lemmas about the orbit camera -/

lemma orbit_scale_lb (t : ℝ) : 1.1 ≤ orbit_scale t := by
  have h := Real.cos_le_one (t / 10)
  unfold orbit_scale
  nlinarith

lemma orbit_scale_ub (t : ℝ) : orbit_scale t ≤ 9.1 := by
  have h := Real.neg_one_le_cos (t / 10)
  unfold orbit_scale
  nlinarith

lemma orbit_scale_zero : orbit_scale 0 = 1.1 := by
  unfold orbit_scale
  norm_num

lemma orbit_scale_ten_pi : orbit_scale (10 * Real.pi) = 9.1 := by
  unfold orbit_scale
  have h : (10 : ℝ) * Real.pi / 10 = Real.pi := by ring
  rw [h, Real.cos_pi]
  norm_num

/-- C5: the orbit radius `orbit_scale t = 5.1 - cos(t/10) * 4` stays within
`[1.1, 9.1]` for every elapsed time. -/
theorem orbit_radius_bounds (t : ℝ) :
    1.1 ≤ orbit_scale t ∧ orbit_scale t ≤ 9.1 :=
  ⟨orbit_scale_lb t, orbit_scale_ub t⟩

/-- C6 counterexample: the camera X coordinate is not `10π`-periodic — at
`t = 0` it is `1.1` but at `t = 0 + 10π` it is `9.1`, because the breathing
factor `cos(t/10)` needs `20π` to close. -/
theorem camera_x_not_periodic_ten_pi :
    camera_x (0 + 10 * Real.pi) ≠ camera_x 0 := by
  have h1 : camera_x 0 = 1.1 := by
    unfold camera_x
    rw [show (0 : ℝ) / 5 = 0 by norm_num, Real.cos_zero, orbit_scale_zero]
    norm_num
  have h2 : camera_x (0 + 10 * Real.pi) = 9.1 := by
    unfold camera_x
    rw [show (0 : ℝ) + 10 * Real.pi = 10 * Real.pi by ring]
    rw [show (10 : ℝ) * Real.pi / 5 = 2 * Real.pi by ring, Real.cos_two_pi,
        orbit_scale_ten_pi]
    norm_num
  rw [h1, h2]
  norm_num

/-- C6 (amended): the camera X/Z position is periodic with period `20π` in
the scaled time. -/
theorem camera_xz_periodic_twenty_pi (t : ℝ) :
    camera_x (t + 20 * Real.pi) = camera_x t ∧
    camera_z (t + 20 * Real.pi) = camera_z t := by
  have h5 : (t + 20 * Real.pi) / 5 = t / 5 + 2 * Real.pi + 2 * Real.pi := by
    ring
  have h10 : (t + 20 * Real.pi) / 10 = t / 10 + 2 * Real.pi := by ring
  unfold camera_x camera_z orbit_scale
  rw [h5, h10]
  simp [Real.cos_add_two_pi, Real.sin_add_two_pi]

/-- C7 counterexample: the extra rotation's angle `orbit_scale * 0.01`
(line 278) is not a constant — it differs between `t = 0` and `t = 10π`. -/
theorem roll_angle_not_constant :
    roll_angle 0 ≠ roll_angle (10 * Real.pi) := by
  unfold roll_angle
  rw [orbit_scale_zero, orbit_scale_ten_pi]
  norm_num

/-- C7 (amended): after `looking_at`, `update_camera` premultiplies a
Z-axis rotation quaternion onto the rotation (bevy `Transform::rotate`
composes in the parent/world frame, not about the camera's local forward
axis), leaving the translation unchanged; its angle `orbit_scale * 0.01`
varies with time rather than being a constant. -/
theorem camera_roll_structure (t : ℝ) :
    (update_camera t).rotation =
      Quat.mul (Quat.from_rotation_z (roll_angle t))
        (camera_look_transform t).rotation ∧
    (update_camera t).translation = (camera_look_transform t).translation ∧
    roll_angle 0 ≠ roll_angle (10 * Real.pi) := by
  refine ⟨rfl, rfl, ?_⟩
  unfold roll_angle
  rw [orbit_scale_zero, orbit_scale_ten_pi]
  norm_num

/-- C8 counterexample: at `t = -2.3` (phase 0) the code's look-at target has
`x = sin(0) * orbit_scale * 0.1 = 0`, while the camera-position
parameterization the claim asserts (X uses cosine) would give
`cos(0) * orbit_scale * 0.1 = 0.1 * orbit_scale > 0`. -/
theorem look_target_not_camera_axes :
    look_target_x (-2.3) ≠ spec_look_target_x (-2.3) := by
  have h0 : ((-2.3 : ℝ) + 2.3) / 5 = 0 := by norm_num
  have hx : look_target_x (-2.3) = 0 := by
    unfold look_target_x
    rw [h0, Real.sin_zero]
    ring
  have hs : spec_look_target_x (-2.3) = orbit_scale (-2.3) * 0.1 := by
    unfold spec_look_target_x
    rw [h0, Real.cos_zero]
    ring
  have hpos : 0 < orbit_scale (-2.3) * 0.1 := by
    have h := orbit_scale_lb (-2.3)
    nlinarith
  rw [hx, hs]
  exact fun hc => absurd hc.symm (ne_of_gt hpos)

/-- C8 (amended): the look-at target is the phase-shifted (`t + 2.3`) orbit
scaled by `0.1 * orbit_scale t`, but with the X/Z axis roles swapped
relative to the camera position formula (target X uses sine, target Z uses
cosine), and with Y also `0.1 * orbit_scale t`; at `t = 0` the camera
position is `(1.1, 1.8, 0)` with `orbit_scale 0 = 1.1` and the target is
computed from phase `2.3`. -/
theorem look_target_swapped_axes (t : ℝ) :
    look_target_x t = spec_look_target_z t ∧
    look_target_z t = spec_look_target_x t ∧
    look_target_y t = orbit_scale t * 0.1 ∧
    camera_x 0 = 1.1 ∧ camera_z 0 = 0 ∧ orbit_scale 0 = 1.1 := by
  refine ⟨?_, ?_, rfl, ?_, ?_, orbit_scale_zero⟩
  · unfold look_target_x spec_look_target_z
    ring
  · unfold look_target_z spec_look_target_x
    ring
  · unfold camera_x
    rw [show (0 : ℝ) / 5 = 0 by norm_num, Real.cos_zero, orbit_scale_zero]
    norm_num
  · unfold camera_z
    rw [show (0 : ℝ) / 5 = 0 by norm_num, Real.sin_zero]
    ring

end Ruins
